import Mathlib

/-!
Verification of the realtime trading core of `aws-live-trading-system`.

The development shallowly embeds the Python modules that the claims are
about:

* `projects/modules/kiwoom_base.py` — the WebSocket receive loop, the
  execution-event router (`_handle_realtime_data`), the order-timeout
  supervisor (`_manage_order_timer` / `_order_timeout`) and the wire
  decoders (`_parse_order_execution`, `_parse_balance`);
* `projects/modules/config.py` — the trading-window check
  (`TradingConfig.is_trading_time`);
* `main.py` — the session scheduler (`TradingMain.start_trading`,
  `TradingMain.stop_trading`, and the shutdown path of
  `TradingMain.start`).

Concurrency is modelled by an explicit timed trace: each decoded order
event carries the wall-clock second at which the receive loop processes
it, and a pending `asyncio` timer task is represented by its deadline
(`armed-at + 300` seconds).  Before an event at time `t` is handed to the
supervisor, every timer whose deadline is `≤ t` has already fired (the
event loop runs a `sleep(300)` continuation no earlier than its deadline,
and a continuation that is due strictly before an event is processed
first).  Python `dict`s become association lists, fallible parsing
becomes total functions returning defaults exactly as the `safe_int`
helper does, and an exception thrown by a registered callback becomes an
explicit error flag that propagates to the receive loop's `except` block.
-/

namespace LiveTrading

/-! ## Decoded order events (`_parse_order_execution` output shape) -/

/-- The dictionary produced by `KiwoomWebSocket._parse_order_execution`. -/
structure ParsedOrder where
  order_no : String
  stock_code : String
  stock_name : String
  order_status : String
  buy_sell : String
  action : String
  order_qty : Int
  exec_qty : Int
  exec_price : Int
  remain_qty : Int
deriving Repr, DecidableEq

/-! ## Order timeout supervisor (`_manage_order_timer` / `_order_timeout`) -/

/-- State of the order-timeout supervisor: the `order_timers` dictionary
(order number ↦ deadline of the pending 5-minute task, in seconds) and the
list of order numbers for which a timeout notification has been emitted. -/
structure SupState where
  timers : List (String × Nat)
  notified : List String
deriving Repr, DecidableEq

/-- The empty supervisor state (`self.order_timers = {}` at construction). -/
def SupState.init : SupState := ⟨[], []⟩

/-- Removing an order number's entry from the timer dictionary
(`self.order_timers[order_no].cancel()` followed by `del`). -/
def eraseTimer (o : String) (ts : List (String × Nat)) : List (String × Nat) :=
  ts.filter fun p => p.1 ≠ o

/-- The timeout duration of `_order_timeout`: `asyncio.sleep(300)`. -/
def timeoutSecs : Nat := 300

/-- Fire every pending timer whose deadline has passed by time `t`:
`_order_timeout` wakes up, emits the timeout notification and deletes its
own entry from `order_timers`. -/
def fireExpired (t : Nat) (s : SupState) : SupState :=
  { timers := s.timers.filter fun p => t < p.2
    notified := s.notified ++ (s.timers.filter fun p => p.2 ≤ t).map Prod.fst }

/-- `KiwoomWebSocket._manage_order_timer`, processing one decoded order
event at wall-clock second `t`.  On status `접수` any existing timer for
the order number is cancelled and a fresh 5-minute timer is armed; on
status `체결` an existing timer is cancelled and removed; any other status
leaves the timer dictionary untouched. -/
def manageOrderTimer (t : Nat) (ev : ParsedOrder) (s : SupState) : SupState :=
  if ev.order_status = "접수" then
    { s with timers := (ev.order_no, t + timeoutSecs) :: eraseTimer ev.order_no s.timers }
  else if ev.order_status = "체결" then
    { s with timers := eraseTimer ev.order_no s.timers }
  else s

/-- Run the supervisor over a timed trace of decoded order events: at each
event's arrival time the due timers fire first, then the event is handed
to `_manage_order_timer`. -/
def processTimed (s : SupState) : List (Nat × ParsedOrder) → SupState
  | [] => s
  | (t, ev) :: rest => processTimed (manageOrderTimer t ev (fireExpired t s)) rest

/-- Keys of the timer dictionary. -/
def timerKeys (s : SupState) : List String := s.timers.map Prod.fst

/-- Does a timed event carry the given order number? -/
def isForOrder (o : String) (e : Nat × ParsedOrder) : Bool := e.2.order_no == o

theorem mem_eraseTimer {p : String × Nat} {o : String} {ts : List (String × Nat)} :
    p ∈ eraseTimer o ts ↔ p ∈ ts ∧ p.1 ≠ o := by
  simp [eraseTimer]

theorem manage_notified (t : Nat) (ev : ParsedOrder) (s : SupState) :
    (manageOrderTimer t ev s).notified = s.notified := by
  unfold manageOrderTimer
  split
  · rfl
  · split <;> rfl

theorem fire_timers_mem {p : String × Nat} {t : Nat} {s : SupState} :
    p ∈ (fireExpired t s).timers ↔ p ∈ s.timers ∧ t < p.2 := by
  simp [fireExpired]

theorem fire_notified_mem {a : String} {t : Nat} {s : SupState} :
    a ∈ (fireExpired t s).notified ↔
      a ∈ s.notified ∨ ∃ d, (a, d) ∈ s.timers ∧ d ≤ t := by
  simp only [fireExpired, List.mem_append, List.mem_map, List.mem_filter]
  constructor
  · rintro (h | ⟨⟨k, d⟩, ⟨hmem, hd⟩, rfl⟩)
    · exact Or.inl h
    · exact Or.inr ⟨d, hmem, by simpa using hd⟩
  · rintro (h | ⟨d, hmem, hd⟩)
    · exact Or.inl h
    · exact Or.inr ⟨(a, d), ⟨hmem, by simpa using hd⟩, rfl⟩

theorem manage_timers_mem_no_o {p : String × Nat} {o : String} {t : Nat}
    {ev : ParsedOrder} {s : SupState} (hne : ev.order_no ≠ o) (hp : p.1 = o) :
    p ∈ (manageOrderTimer t ev s).timers → p ∈ s.timers := by
  unfold manageOrderTimer
  split
  · intro h
    rcases List.mem_cons.mp h with h | h
    · exact absurd (by rw [h] at hp; exact hp.symm) (Ne.symm hne)
    · exact (mem_eraseTimer.mp h).1
  · split
    · intro h
      exact (mem_eraseTimer.mp h).1
    · exact id

/-- Processing a trace that never mentions order `o` neither creates a timer
for `o` nor emits a timeout notification for `o`. -/
theorem processTimed_no_o (o : String) (evs : List (Nat × ParsedOrder)) :
    ∀ s : SupState, (∀ e ∈ evs, e.2.order_no ≠ o) →
      (∀ d, (o, d) ∉ s.timers) → o ∉ s.notified →
      (∀ d, (o, d) ∉ (processTimed s evs).timers) ∧
        o ∉ (processTimed s evs).notified := by
  induction evs with
  | nil => intro s _ hnt hnn; exact ⟨hnt, hnn⟩
  | cons e rest ih =>
    intro s hall hnt hnn
    obtain ⟨t, ev⟩ := e
    have hne : ev.order_no ≠ o := hall (t, ev) (List.mem_cons_self _ _)
    have hfire_t : ∀ d, (o, d) ∉ (fireExpired t s).timers := fun d h =>
      hnt d (fire_timers_mem.mp h).1
    have hfire_n : o ∉ (fireExpired t s).notified := by
      intro h
      rcases fire_notified_mem.mp h with h | ⟨d, hmem, _⟩
      · exact hnn h
      · exact hnt d hmem
    have hstep_t : ∀ d, (o, d) ∉ (manageOrderTimer t ev (fireExpired t s)).timers :=
      fun d h => hfire_t d (manage_timers_mem_no_o hne rfl h)
    have hstep_n : o ∉ (manageOrderTimer t ev (fireExpired t s)).notified := by
      rw [manage_notified]; exact hfire_n
    exact ih _ (fun e he => hall e (List.mem_cons_of_mem _ he)) hstep_t hstep_n

/-- While a timer for `o` is pending with a deadline strictly beyond the
fill's arrival time `t2`, and the only remaining event for `o` is that fill,
the supervisor never emits a timeout notification for `o` and ends with no
timer entry for `o`. -/
theorem processTimed_pending (o : String) (t2 : Nat) (fill : ParsedOrder)
    (hfill : fill.order_status = "체결") :
    ∀ (evs : List (Nat × ParsedOrder)) (s : SupState),
      evs.Pairwise (fun a b => a.1 ≤ b.1) →
      evs.filter (isForOrder o) = [(t2, fill)] →
      (∀ p ∈ s.timers, p.1 = o → t2 < p.2) → o ∉ s.notified →
      (∀ d, (o, d) ∉ (processTimed s evs).timers) ∧
        o ∉ (processTimed s evs).notified := by
  intro evs
  induction evs with
  | nil => intro s _ hflt; simp [List.filter] at hflt
  | cons e rest ih =>
    intro s hsort hflt hpend hnn
    obtain ⟨t, ev⟩ := e
    rw [List.pairwise_cons] at hsort
    by_cases ho : ev.order_no = o
    · -- the head is the fill event for `o`
      have hflt' : ((t, ev) :: rest).filter (isForOrder o) =
          (t, ev) :: rest.filter (isForOrder o) := by
        simp [List.filter_cons, isForOrder, ho]
      rw [hflt'] at hflt
      injection hflt with h1 h2
      injection h1 with ht hev
      have hfev : ev.order_status = "체결" := by rw [hev, hfill]
      have hfire_n : o ∉ (fireExpired t s).notified := by
        intro h
        rcases fire_notified_mem.mp h with h | ⟨d, hmem, hd⟩
        · exact hnn h
        · exact absurd hd (Nat.not_le.mpr (by rw [ht]; exact hpend (o, d) hmem rfl))
      have hstep : manageOrderTimer t ev (fireExpired t s) =
          { fireExpired t s with
              timers := eraseTimer ev.order_no (fireExpired t s).timers } := by
        unfold manageOrderTimer
        rw [if_neg (by rw [hfev]; decide), if_pos hfev]
      rw [processTimed, hstep]
      refine processTimed_no_o o rest _ ?_ ?_ ?_
      · intro e he hcon
        have : isForOrder o e = true := by simp [isForOrder, hcon]
        have : e ∈ rest.filter (isForOrder o) := List.mem_filter.mpr ⟨he, this⟩
        rw [h2] at this
        exact absurd this (List.not_mem_nil e)
      · intro d h
        have := mem_eraseTimer.mp h
        rw [ho] at this
        exact this.2 rfl
      · exact hfire_n
    · -- the head concerns a different order
      have hflt' : rest.filter (isForOrder o) = [(t2, fill)] := by
        rw [List.filter_cons] at hflt
        simpa [isForOrder, ho] using hflt
      have hmem2 : (t2, fill) ∈ rest :=
        List.mem_filter.mp (hflt' ▸ List.mem_cons_self _ _) |>.1
      have htle : t ≤ t2 := hsort.1 (t2, fill) hmem2
      have hfire_p : ∀ p ∈ (fireExpired t s).timers, p.1 = o → t2 < p.2 :=
        fun p hp h1 => hpend p (fire_timers_mem.mp hp).1 h1
      have hfire_n : o ∉ (fireExpired t s).notified := by
        intro h
        rcases fire_notified_mem.mp h with h | ⟨d, hmem, hd⟩
        · exact hnn h
        · exact absurd (Nat.lt_of_lt_of_le (hpend (o, d) hmem rfl) (le_trans hd htle))
            (lt_irrefl t2)
      have hstep_p : ∀ p ∈ (manageOrderTimer t ev (fireExpired t s)).timers,
          p.1 = o → t2 < p.2 := by
        intro p hp h1
        exact hfire_p p (manage_timers_mem_no_o ho h1 hp) h1
      have hstep_n : o ∉ (manageOrderTimer t ev (fireExpired t s)).notified := by
        rw [manage_notified]; exact hfire_n
      exact ih _ hsort.2 hflt' hstep_p hstep_n

/-- If the only events for order `o` in the remaining trace are a `접수`
(received) event at `t1` and a `체결` (filled) event at `t2 < t1 + 300`,
starting from a state with no timer and no notification for `o`, the
supervisor never notifies `o` and ends without a timer entry for `o`. -/
theorem processTimed_recv_fill (o : String) (t1 t2 : Nat)
    (recv fill : ParsedOrder)
    (hrecv : recv.order_status = "접수") (hfill : fill.order_status = "체결")
    (hlt : t2 < t1 + timeoutSecs) :
    ∀ (evs : List (Nat × ParsedOrder)) (s : SupState),
      evs.Pairwise (fun a b => a.1 ≤ b.1) →
      evs.filter (isForOrder o) = [(t1, recv), (t2, fill)] →
      (∀ d, (o, d) ∉ s.timers) → o ∉ s.notified →
      (∀ d, (o, d) ∉ (processTimed s evs).timers) ∧
        o ∉ (processTimed s evs).notified := by
  intro evs
  induction evs with
  | nil => intro s _ hflt; simp [List.filter] at hflt
  | cons e rest ih =>
    intro s hsort hflt hnt hnn
    obtain ⟨t, ev⟩ := e
    rw [List.pairwise_cons] at hsort
    by_cases ho : ev.order_no = o
    · -- the head is the received event for `o`
      have hflt' : ((t, ev) :: rest).filter (isForOrder o) =
          (t, ev) :: rest.filter (isForOrder o) := by
        simp [List.filter_cons, isForOrder, ho]
      rw [hflt'] at hflt
      injection hflt with h1 h2
      injection h1 with ht hev
      have hrev : ev.order_status = "접수" := by rw [hev, hrecv]
      have hfire_t : ∀ d, (o, d) ∉ (fireExpired t s).timers := fun d h =>
        hnt d (fire_timers_mem.mp h).1
      have hfire_n : o ∉ (fireExpired t s).notified := by
        intro h
        rcases fire_notified_mem.mp h with h | ⟨d, hmem, _⟩
        · exact hnn h
        · exact hnt d hmem
      have hstep : manageOrderTimer t ev (fireExpired t s) =
          { fireExpired t s with
              timers := (ev.order_no, t + timeoutSecs) ::
                eraseTimer ev.order_no (fireExpired t s).timers } := by
        unfold manageOrderTimer
        rw [if_pos hrev]
      rw [processTimed, hstep]
      refine processTimed_pending o t2 fill hfill rest _ hsort.2 h2 ?_ ?_
      · intro p hp hpo
        rcases List.mem_cons.mp hp with h | h
        · rw [h, ht]
          exact hlt
        · exact absurd (hpo.trans ho.symm) (mem_eraseTimer.mp h).2
      · exact hfire_n
    · -- the head concerns a different order
      have hflt' : rest.filter (isForOrder o) = [(t1, recv), (t2, fill)] := by
        rw [List.filter_cons] at hflt
        simpa [isForOrder, ho] using hflt
      have hfire_t : ∀ d, (o, d) ∉ (fireExpired t s).timers := fun d h =>
        hnt d (fire_timers_mem.mp h).1
      have hfire_n : o ∉ (fireExpired t s).notified := by
        intro h
        rcases fire_notified_mem.mp h with h | ⟨d, hmem, _⟩
        · exact hnn h
        · exact hnt d hmem
      have hstep_t : ∀ d, (o, d) ∉ (manageOrderTimer t ev (fireExpired t s)).timers :=
        fun d h => hfire_t d (manage_timers_mem_no_o ho rfl h)
      have hstep_n : o ∉ (manageOrderTimer t ev (fireExpired t s)).notified := by
        rw [manage_notified]; exact hfire_n
      exact ih _ hsort.2 hflt' hstep_t hstep_n

/-- C1: for every time-ordered trace of decoded order events in which the
events for `o` are exactly a `접수` (Received) event at `t1` followed by a
`체결` (Filled) event at `t2` strictly before the 5-minute deadline
`t1 + 300`, the supervisor started from its initial state emits no timeout
notification for `o` and its timer map ends with no entry for `o`. -/
theorem received_then_filled_no_timeout
    (evs : List (Nat × ParsedOrder)) (o : String) (t1 t2 : Nat)
    (recv fill : ParsedOrder)
    (hsort : evs.Pairwise (fun a b => a.1 ≤ b.1))
    (hflt : evs.filter (isForOrder o) = [(t1, recv), (t2, fill)])
    (hrecv : recv.order_status = "접수") (hfill : fill.order_status = "체결")
    (hlt : t2 < t1 + timeoutSecs) :
    o ∉ (processTimed SupState.init evs).notified ∧
      o ∉ timerKeys (processTimed SupState.init evs) := by
  have h := processTimed_recv_fill o t1 t2 recv fill hrecv hfill hlt evs
    SupState.init hsort hflt (by intro d h; exact absurd h (List.not_mem_nil _))
    (List.not_mem_nil _)
  refine ⟨h.2, ?_⟩
  intro hk
  rcases List.mem_map.mp hk with ⟨⟨a, d⟩, hmem, hfst⟩
  have ha : a = o := hfst
  subst ha
  exact h.1 d hmem

/-- Witness for C1: the end-to-end scenario of the spec, order `O1`
received at second 0 and filled at second 240, with an unrelated order
`O2` received in between. -/
theorem received_then_filled_no_timeout_witness :
    let recv : ParsedOrder := ⟨"O1", "005930", "삼성전자", "접수", "매수", "매수", 100, 0, 0, 100⟩
    let fill : ParsedOrder := ⟨"O1", "005930", "삼성전자", "체결", "매수", "매수", 100, 100, 70000, 0⟩
    let other : ParsedOrder := ⟨"O2", "000660", "SK하이닉스", "접수", "매도", "매도", 50, 0, 0, 50⟩
    let evs : List (Nat × ParsedOrder) := [(0, recv), (120, other), (240, fill)]
    "O1" ∉ (processTimed SupState.init evs).notified ∧
      "O1" ∉ timerKeys (processTimed SupState.init evs) := by
  intro recv fill other evs
  exact received_then_filled_no_timeout evs "O1" 0 240 recv fill
    (by decide) (by decide) (by decide) (by decide) (by decide)

theorem not_mem_keys_eraseTimer (o : String) (ts : List (String × Nat)) :
    o ∉ (eraseTimer o ts).map Prod.fst := by
  intro h
  rcases List.mem_map.mp h with ⟨p, hp, hfst⟩
  exact (mem_eraseTimer.mp hp).2 hfst

theorem nodup_keys_eraseTimer {o : String} {ts : List (String × Nat)}
    (h : (ts.map Prod.fst).Nodup) : ((eraseTimer o ts).map Prod.fst).Nodup :=
  List.Nodup.sublist ((List.filter_sublist ts).map Prod.fst) h

theorem nodup_keys_fireExpired {t : Nat} {s : SupState}
    (h : (timerKeys s).Nodup) : (timerKeys (fireExpired t s)).Nodup :=
  List.Nodup.sublist ((List.filter_sublist s.timers).map Prod.fst) h

theorem nodup_keys_manage {t : Nat} {ev : ParsedOrder} {s : SupState}
    (h : (timerKeys s).Nodup) : (timerKeys (manageOrderTimer t ev s)).Nodup := by
  unfold manageOrderTimer timerKeys
  split
  · exact List.nodup_cons.mpr
      ⟨not_mem_keys_eraseTimer ev.order_no s.timers, nodup_keys_eraseTimer h⟩
  · split
    · exact nodup_keys_eraseTimer h
    · exact h

theorem processTimed_nodup_keys (evs : List (Nat × ParsedOrder)) :
    ∀ s : SupState, (timerKeys s).Nodup →
      (timerKeys (processTimed s evs)).Nodup := by
  induction evs with
  | nil => exact fun s h => h
  | cons e rest ih =>
    intro s h
    exact ih _ (nodup_keys_manage (nodup_keys_fireExpired h))

/-- C2: in every supervisor state reachable from the initial state there is
at most one live timer per order number (the timer map's keys are without
duplicates), and handling a second `접수` (Received) event at time `t` for
an order number that already has a live timer leaves exactly one entry for
that order number, whose deadline `t + 300` is measured from the second
event's arrival. -/
theorem timer_unique_and_rearm
    (evs : List (Nat × ParsedOrder)) (s : SupState) (t : Nat) (ev : ParsedOrder)
    (hstatus : ev.order_status = "접수")
    (hlive : (s.timers.lookup ev.order_no).isSome) :
    (timerKeys (processTimed SupState.init evs)).Nodup ∧
      (manageOrderTimer t ev s).timers.filter (fun p => p.1 == ev.order_no) =
        [(ev.order_no, t + timeoutSecs)] := by
  constructor
  · exact processTimed_nodup_keys evs SupState.init (by simp [timerKeys, SupState.init])
  · unfold manageOrderTimer
    rw [if_pos hstatus]
    show ((ev.order_no, t + timeoutSecs) :: eraseTimer ev.order_no s.timers).filter
        (fun p => p.1 == ev.order_no) = _
    rw [List.filter_cons]
    simp only [beq_self_eq_true, if_pos]
    have : (eraseTimer ev.order_no s.timers).filter
        (fun p => p.1 == ev.order_no) = [] := by
      rw [List.filter_eq_nil_iff]
      intro p hp
      simpa using (mem_eraseTimer.mp hp).2
    rw [this]

/-- Witness for C2: order `O1` already has a timer armed at second 10 when a
second `접수` event arrives at second 100; afterwards the single entry for
`O1` has deadline `100 + 300`. -/
theorem timer_unique_and_rearm_witness :
    let ev : ParsedOrder := ⟨"O1", "005930", "삼성전자", "접수", "매수", "매수", 100, 0, 0, 100⟩
    let s : SupState := ⟨[("O1", 310)], []⟩
    let evs : List (Nat × ParsedOrder) := [(0, ev), (100, ev)]
    (timerKeys (processTimed SupState.init evs)).Nodup ∧
      (manageOrderTimer 100 ev s).timers.filter (fun p => p.1 == ev.order_no) =
        [("O1", 400)] := by
  intro ev s evs
  exact timer_unique_and_rearm evs s 100 ev (by decide) (by decide)

/-! ## Wire decoding (`_parse_order_execution`, `_parse_balance`) -/

/-- One record inside a `REAL` frame: its `type` code, its `values`
field-code dictionary (used by `_parse_order_execution`) and its top-level
fields (used by `_parse_balance`). -/
structure RTRecord where
  type : String
  values : List (String × String)
  fields : List (String × String)
deriving Repr, DecidableEq

/-- Python `dict.get(key, default)` on an association-list dictionary. -/
def getD (kvs : List (String × String)) (k d : String) : String :=
  match kvs.lookup k with
  | some v => v
  | none => d

/-- Decimal digit value of a character, if it is a digit. -/
def digitVal? (c : Char) : Option Nat :=
  if 48 ≤ c.toNat ∧ c.toNat ≤ 57 then some (c.toNat - 48) else none

/-- Accumulate decimal digits; any non-digit makes the whole parse fail. -/
def parseDigitsAux : List Char → Nat → Option Nat
  | [], acc => some acc
  | c :: cs, acc =>
    match digitVal? c with
    | some d => parseDigitsAux cs (acc * 10 + d)
    | none => none

/-- A non-empty all-digit run, as a number. -/
def parseDigits : List Char → Option Nat
  | [] => none
  | cs => parseDigitsAux cs 0

/-- Strip leading and trailing spaces. -/
def stripSpaces (cs : List Char) : List Char :=
  ((cs.dropWhile (· = ' ')).reverse.dropWhile (· = ' ')).reverse

/-- Python's `int(...)` on a string: optional surrounding whitespace, an
optional sign, then decimal digits; `none` when the call would raise
`ValueError`. -/
def pyInt? (s : String) : Option Int :=
  match stripSpaces s.data with
  | [] => none
  | c :: rest =>
    if c = '-' then (parseDigits rest).map (fun n => -(n : Int))
    else if c = '+' then (parseDigits rest).map (fun n => (n : Int))
    else (parseDigits (c :: rest)).map (fun n => (n : Int))

/-- The `safe_int` helper inside `_parse_order_execution`: empty, blank or
non-numeric text degrades to the default `0` instead of raising. -/
def safe_int (value : String) : Int :=
  match pyInt? value with
  | some n => n
  | none => 0

/-- `KiwoomWebSocket._parse_order_execution`: decode one order record.
The wire status `주문` (with the `'0'` default of the second `get`) is
normalized to `접수`; every other literal is passed through as-is. -/
def parseOrderExecution (data : RTRecord) : ParsedOrder :=
  let values := data.values
  let raw_status := getD values "913" ""
  let buy_sell := getD values "907" ""
  let order_status := if getD values "913" "0" = "주문" then "접수" else raw_status
  { order_no := getD values "9203" ""
    stock_code := getD values "9001" ""
    stock_name := getD values "302" ""
    order_status := order_status
    buy_sell := if buy_sell = "2" then "매수" else "매도"
    action := if buy_sell = "2" then "매수" else "매도"
    order_qty := safe_int (getD values "900" "0")
    exec_qty := safe_int (getD values "911" "0")
    exec_price := safe_int (getD values "910" "0")
    remain_qty := safe_int (getD values "902" "0") }

/-- The dictionary produced by `KiwoomWebSocket._parse_balance`; `time` is
the `datetime.now()` string, passed in explicitly. -/
structure ParsedBalance where
  time : String
  ord_psbl_cash : String
  tot_evlu_amt : String
  stock_code : String
  holding_qty : String
  avg_price : String
  raw_data : RTRecord
deriving Repr, DecidableEq

/-- `KiwoomWebSocket._parse_balance`: decode one balance record. -/
def parseBalance (now : String) (data : RTRecord) : ParsedBalance :=
  { time := now
    ord_psbl_cash := getD data.fields "ord_psbl_cash" "0"
    tot_evlu_amt := getD data.fields "tot_evlu_amt" "0"
    stock_code := getD data.fields "stck_shrn_iscd" ""
    holding_qty := getD data.fields "hldg_qty" "0"
    avg_price := getD data.fields "pchs_avg_pric" "0"
    raw_data := data }

/-- C3: an order record whose wire status literal under field code `913` is
none of `접수` (received), `체결` (filled) or `주문` (the literal the parser
normalizes to `접수`) neither arms a new timer nor cancels an existing one:
the supervisor state is unchanged. -/
theorem unknown_status_leaves_timers
    (data : RTRecord) (s : SupState) (t : Nat)
    (h1 : getD data.values "913" "" ≠ "접수")
    (h2 : getD data.values "913" "" ≠ "체결")
    (h3 : getD data.values "913" "" ≠ "주문") :
    manageOrderTimer t (parseOrderExecution data) s = s := by
  have hstat : (parseOrderExecution data).order_status = getD data.values "913" "" := by
    unfold parseOrderExecution
    cases hl : data.values.lookup "913" with
    | some v =>
      simp only [getD, hl] at h3 ⊢
      rw [if_neg h3]
    | none =>
      simp only [getD, hl]
      rw [if_neg (by decide)]
  unfold manageOrderTimer
  rw [hstat, if_neg h1, if_neg h2]

/-- Witness for C3: a record with the status literal `확인` leaves a state
holding one live timer untouched. -/
theorem unknown_status_leaves_timers_witness :
    let data : RTRecord := ⟨"00", [("913", "확인"), ("9203", "O7")], []⟩
    let s : SupState := ⟨[("O7", 360)], []⟩
    manageOrderTimer 42 (parseOrderExecution data) s = s := by
  intro data s
  exact unknown_status_leaves_timers data s 42 (by decide) (by decide) (by decide)

/-! ## Execution event router (`_handle_realtime_data`) -/

/-- Observable actions of `_handle_realtime_data`, in program order. -/
inductive RouterAction where
  | timerManage (ev : ParsedOrder)
  | orderCallback (ev : ParsedOrder)
  | balanceCallback (b : ParsedBalance)
deriving Repr, DecidableEq

/-- The `self.callbacks` registry: which of the two slots are registered,
and whether invoking a callback on a given event raises. -/
structure Callbacks where
  hasOrder : Bool
  hasBalance : Bool
  orderRaises : ParsedOrder → Bool
  balanceRaises : ParsedBalance → Bool

/-- `KiwoomWebSocket._handle_realtime_data` over the `data` list of a
`REAL` frame at wall-clock second `t`: type `00`/`04` records are decoded,
handed to `_manage_order_timer` and then to the `order_execution`
callback; type `05` records go only to the `balance_update` callback.  A
raising callback aborts the rest of the frame (the returned flag is
`true`); the exception is caught one level up, in `receive_messages`. -/
def handleRealtimeData (t : Nat) (now : String) (cbs : Callbacks) :
    SupState → List RTRecord → SupState × List RouterAction × Bool
  | s, [] => (s, [], false)
  | s, r :: rest =>
    if r.type = "04" ∨ r.type = "00" then
      let ev := parseOrderExecution r
      let s1 := manageOrderTimer t ev s
      if cbs.hasOrder then
        if cbs.orderRaises ev then
          (s1, [.timerManage ev, .orderCallback ev], true)
        else
          let res := handleRealtimeData t now cbs s1 rest
          (res.1, .timerManage ev :: .orderCallback ev :: res.2.1, res.2.2)
      else
        let res := handleRealtimeData t now cbs s1 rest
        (res.1, .timerManage ev :: res.2.1, res.2.2)
    else if r.type = "05" then
      let b := parseBalance now r
      if cbs.hasBalance then
        if cbs.balanceRaises b then
          (s, [.balanceCallback b], true)
        else
          let res := handleRealtimeData t now cbs s rest
          (res.1, .balanceCallback b :: res.2.1, res.2.2)
      else
        handleRealtimeData t now cbs s rest
    else
      handleRealtimeData t now cbs s rest

/-- One iteration of `receive_messages` on a `REAL` frame.  The whole loop
body sits inside `try/except Exception`, so an exception from a callback is
logged and the `while` loop moves on to the next inbound frame; the second
component is `true` exactly when the loop continues. -/
def receiveRealFrame (t : Nat) (now : String) (cbs : Callbacks) (s : SupState)
    (records : List RTRecord) : SupState × Bool :=
  ((handleRealtimeData t now cbs s records).1, true)

/-- Callbacks that never raise. -/
def noRaise (cbs : Callbacks) : Prop :=
  (∀ ev, cbs.orderRaises ev = false) ∧ (∀ b, cbs.balanceRaises b = false)

theorem handle_noRaise_not_raised (t : Nat) (now : String) (cbs : Callbacks)
    (h : noRaise cbs) :
    ∀ (recs : List RTRecord) (s : SupState),
      (handleRealtimeData t now cbs s recs).2.2 = false := by
  intro recs
  induction recs with
  | nil => intro s; rfl
  | cons r rest ih =>
    intro s
    unfold handleRealtimeData
    split
    · cases cbs.hasOrder <;> simp [h.1, ih]
    · split
      · cases cbs.hasBalance <;> simp [h.2, ih]
      · exact ih s

/-- C4: a wire order record whose numeric fields (`900` ordered qty, `911`
executed qty, `910` executed price, `902` remaining qty) hold empty or
non-numeric text decodes with `0` in all four numeric slots, the remaining
fields still decode (decoding is total, so nothing is raised), and the
router goes on to process the rest of the frame without aborting. -/
theorem numeric_fields_default_zero
    (data : RTRecord) (rest : List RTRecord) (t : Nat) (now : String)
    (cbs : Callbacks) (s : SupState)
    (h900 : pyInt? (getD data.values "900" "0") = none)
    (h911 : pyInt? (getD data.values "911" "0") = none)
    (h910 : pyInt? (getD data.values "910" "0") = none)
    (h902 : pyInt? (getD data.values "902" "0") = none)
    (hnr : noRaise cbs) :
    (parseOrderExecution data).order_qty = 0 ∧
      (parseOrderExecution data).exec_qty = 0 ∧
      (parseOrderExecution data).exec_price = 0 ∧
      (parseOrderExecution data).remain_qty = 0 ∧
      (parseOrderExecution data).order_no = getD data.values "9203" "" ∧
      (handleRealtimeData t now cbs s (data :: rest)).2.2 = false := by
  refine ⟨?_, ?_, ?_, ?_, ?_, handle_noRaise_not_raised t now cbs hnr _ s⟩ <;>
    simp [parseOrderExecution, safe_int, h900, h911, h910, h902]

/-- Witness for C4: a record with an empty ordered quantity, a non-numeric
executed quantity, a blank price and garbled remaining quantity. -/
theorem numeric_fields_default_zero_witness :
    let data : RTRecord := ⟨"00",
      [("9203", "O9"), ("913", "접수"), ("900", ""), ("911", "abc"),
       ("910", " "), ("902", "12x")], []⟩
    let cbs : Callbacks := ⟨true, true, fun _ => false, fun _ => false⟩
    (parseOrderExecution data).order_qty = 0 ∧
      (parseOrderExecution data).exec_qty = 0 ∧
      (parseOrderExecution data).exec_price = 0 ∧
      (parseOrderExecution data).remain_qty = 0 ∧
      (parseOrderExecution data).order_no = getD data.values "9203" "" ∧
      (handleRealtimeData 0 "" cbs SupState.init [data]).2.2 = false := by
  intro data cbs
  exact numeric_fields_default_zero data [] 0 "" cbs SupState.init
    (by decide) (by decide) (by decide) (by decide)
    ⟨fun _ => rfl, fun _ => rfl⟩

/-- C8: a registered callback that raises is caught at the receive-loop
boundary: the loop continues to the next inbound frame, the timer map keeps
exactly the state `_manage_order_timer` had already established for the
event, and a raising balance callback leaves the supervisor state
untouched. -/
theorem handler_failure_isolated
    (t : Nat) (now : String) (cbs : Callbacks) (s : SupState) (r : RTRecord) :
    ((r.type = "04" ∨ r.type = "00") → cbs.hasOrder = true →
      cbs.orderRaises (parseOrderExecution r) = true →
      receiveRealFrame t now cbs s [r] =
        (manageOrderTimer t (parseOrderExecution r) s, true)) ∧
    (r.type = "05" → cbs.hasBalance = true →
      cbs.balanceRaises (parseBalance now r) = true →
      receiveRealFrame t now cbs s [r] = (s, true)) := by
  constructor
  · intro hty hcb hraise
    unfold receiveRealFrame handleRealtimeData
    rw [if_pos hty]
    simp [hcb, hraise]
  · intro hty hcb hraise
    unfold receiveRealFrame handleRealtimeData
    rw [if_neg (by rw [hty]; decide), if_pos hty]
    simp [hcb, hraise]

/-- Witness for C8: both a raising order callback and a raising balance
callback, on concrete records. -/
theorem handler_failure_isolated_witness :
    let cbs : Callbacks := ⟨true, true, fun _ => true, fun _ => true⟩
    let rOrd : RTRecord := ⟨"00", [("913", "접수"), ("9203", "O3")], []⟩
    let rBal : RTRecord := ⟨"05", [], [("hldg_qty", "10")]⟩
    let s : SupState := ⟨[("O8", 500)], []⟩
    receiveRealFrame 7 "now" cbs s [rOrd] =
        (manageOrderTimer 7 (parseOrderExecution rOrd) s, true) ∧
      receiveRealFrame 7 "now" cbs s [rBal] = (s, true) := by
  intro cbs rOrd rBal s
  exact ⟨(handler_failure_isolated 7 "now" cbs s rOrd).1 (Or.inr rfl) rfl rfl,
    (handler_failure_isolated 7 "now" cbs s rBal).2 rfl rfl rfl⟩

/-- C9: the router hands an order record to the timeout supervisor first
and invokes the registered order callback only afterwards; a type `05`
balance record triggers only the registered balance callback and leaves
the supervisor state unchanged. -/
theorem router_timer_then_handler
    (t : Nat) (now : String) (cbs : Callbacks) (s : SupState) (r : RTRecord) :
    ((r.type = "04" ∨ r.type = "00") → cbs.hasOrder = true →
      cbs.orderRaises (parseOrderExecution r) = false →
      (handleRealtimeData t now cbs s [r]).2.1 =
          [RouterAction.timerManage (parseOrderExecution r),
           RouterAction.orderCallback (parseOrderExecution r)] ∧
        (handleRealtimeData t now cbs s [r]).1 =
          manageOrderTimer t (parseOrderExecution r) s) ∧
    (r.type = "05" → cbs.hasBalance = true →
      cbs.balanceRaises (parseBalance now r) = false →
      (handleRealtimeData t now cbs s [r]).2.1 =
          [RouterAction.balanceCallback (parseBalance now r)] ∧
        (handleRealtimeData t now cbs s [r]).1 = s) := by
  constructor
  · intro hty hcb hraise
    unfold handleRealtimeData
    rw [if_pos hty]
    simp [hcb, hraise, handleRealtimeData]
  · intro hty hcb hraise
    unfold handleRealtimeData
    rw [if_neg (by rw [hty]; decide), if_pos hty]
    simp [hcb, hraise, handleRealtimeData]

/-- Witness for C9: a concrete order record and a concrete balance record
with non-raising registered callbacks. -/
theorem router_timer_then_handler_witness :
    let cbs : Callbacks := ⟨true, true, fun _ => false, fun _ => false⟩
    let rOrd : RTRecord := ⟨"04", [("913", "체결"), ("9203", "O4")], []⟩
    let rBal : RTRecord := ⟨"05", [], [("hldg_qty", "3")]⟩
    let s : SupState := ⟨[("O4", 250)], []⟩
    ((handleRealtimeData 9 "now" cbs s [rOrd]).2.1 =
        [RouterAction.timerManage (parseOrderExecution rOrd),
         RouterAction.orderCallback (parseOrderExecution rOrd)] ∧
      (handleRealtimeData 9 "now" cbs s [rOrd]).1 =
        manageOrderTimer 9 (parseOrderExecution rOrd) s) ∧
    ((handleRealtimeData 9 "now" cbs s [rBal]).2.1 =
        [RouterAction.balanceCallback (parseBalance "now" rBal)] ∧
      (handleRealtimeData 9 "now" cbs s [rBal]).1 = s) := by
  intro cbs rOrd rBal s
  exact ⟨(router_timer_then_handler 9 "now" cbs s rOrd).1 (Or.inl rfl) rfl rfl,
    (router_timer_then_handler 9 "now" cbs s rBal).2 rfl rfl rfl⟩

/-! ## Trading window (`TradingConfig.is_trading_time`) -/

/-- Lexicographic order on Python `datetime.time` values, at second
granularity (the configured boundaries always carry second `0`). -/
def timeLE (h1 m1 s1 h2 m2 s2 : Nat) : Prop :=
  h1 < h2 ∨ (h1 = h2 ∧ (m1 < m2 ∨ (m1 = m2 ∧ s1 ≤ s2)))

instance (h1 m1 s1 h2 m2 s2 : Nat) : Decidable (timeLE h1 m1 s1 h2 m2 s2) := by
  unfold timeLE
  infer_instance

/-- `TradingConfig.is_trading_time`, parameterized by the configured
window (`START_HOUR`/`START_MINUTE`/`END_HOUR`/`END_MINUTE`), the current
weekday (`0` = Monday .. `6` = Sunday) and the current time of day:
weekday `>= 5` is always outside, otherwise both boundaries are inclusive. -/
def isTradingTime (startH startM endH endM : Nat) (weekday : Nat)
    (h m s : Nat) : Bool :=
  if 5 ≤ weekday then false
  else decide (timeLE startH startM 0 h m s) && decide (timeLE h m s endH endM 0)

/-- C7: with `START=09:01` and `END=15:30`, on any weekday `09:00:59` is
outside the window while `09:01:00` and `15:30:00` are inside, and on
Saturday (`5`) or Sunday (`6`) every time of day is outside. -/
theorem trading_window_boundary :
    (∀ wd, wd < 5 →
      isTradingTime 9 1 15 30 wd 9 0 59 = false ∧
        isTradingTime 9 1 15 30 wd 9 1 0 = true ∧
        isTradingTime 9 1 15 30 wd 15 30 0 = true) ∧
    (∀ wd h m s, 5 ≤ wd → isTradingTime 9 1 15 30 wd h m s = false) := by
  constructor
  · intro wd hwd
    have h5 : ¬ 5 ≤ wd := Nat.not_le.mpr hwd
    refine ⟨?_, ?_, ?_⟩ <;> (unfold isTradingTime; rw [if_neg h5]; decide)
  · intro wd h m s h5
    unfold isTradingTime
    rw [if_pos h5]

/-- Witness for C7: Wednesday (`2`) at the three boundary instants, and
Saturday (`5`) / Sunday (`6`) at an in-window instant. -/
theorem trading_window_boundary_witness :
    (isTradingTime 9 1 15 30 2 9 0 59 = false ∧
      isTradingTime 9 1 15 30 2 9 1 0 = true ∧
      isTradingTime 9 1 15 30 2 15 30 0 = true) ∧
    isTradingTime 9 1 15 30 5 10 0 0 = false ∧
    isTradingTime 9 1 15 30 6 10 0 0 = false :=
  ⟨trading_window_boundary.1 2 (by decide),
    trading_window_boundary.2 5 10 0 0 (by decide),
    trading_window_boundary.2 6 10 0 0 (by decide)⟩

/-! ## Session scheduler (`TradingMain` in `main.py`) -/

/-- Observable side effects of `TradingMain` on its collaborators. -/
inductive MainEffect where
  | refreshAccount
  | wsConnect
  | wsSubscribe
  | liquidate
  | startTask
  | cancelTask
  | wsDisconnect
deriving Repr, DecidableEq

/-- The fields of `TradingMain` (and of the WebSocket client it owns) that
the session scheduler reads or writes. -/
structure MainState where
  is_trading_active : Bool
  ws_connected : Bool
  order_callback_registered : Bool
  subscriptions : List String
  account_refreshed : Bool
  account_no : String
  has_controller : Bool
  has_live_task : Bool
deriving Repr, DecidableEq

/-- `TradingMain.connect_websocket`: connect, register the
`order_execution` callback and subscribe, but only when not already
connected; `subscribe_order_execution` is a no-op without an account
number. -/
def connectWebsocket (s : MainState) : MainState × List MainEffect :=
  if s.ws_connected then (s, [])
  else
    let s1 := { s with ws_connected := true, order_callback_registered := true }
    if s1.account_no = "" then (s1, [.wsConnect])
    else
      ({ s1 with subscriptions := s1.subscriptions ++ ["order_execution"] },
        [.wsConnect, .wsSubscribe])

/-- `TradingMain.initialize_account`: refresh the account snapshot. -/
def initializeAccount (s : MainState) : MainState × List MainEffect :=
  ({ s with account_refreshed := true }, [.refreshAccount])

/-- `TradingMain.start_trading`: returns immediately when trading is
already active; otherwise marks trading active, refreshes the account,
connects the WebSocket and, if a trading controller is configured, starts
the trading-loop task. -/
def startTrading (s : MainState) : MainState × List MainEffect :=
  if s.is_trading_active then (s, [])
  else
    let r1 := initializeAccount { s with is_trading_active := true }
    let r2 := connectWebsocket r1.1
    if r2.1.has_controller then
      ({ r2.1 with has_live_task := true }, r1.2 ++ r2.2 ++ [.startTask])
    else (r2.1, r1.2 ++ r2.2)

/-- `TradingMain.stop_trading`: returns immediately when trading is not
active; otherwise marks trading inactive, liquidates every held position
(`sell_all_positions`) and cancels a still-running trading task. -/
def stopTrading (s : MainState) : MainState × List MainEffect :=
  if s.is_trading_active then
    let s1 := { s with is_trading_active := false }
    if s1.has_live_task then
      ({ s1 with has_live_task := false }, [.liquidate, .cancelTask])
    else (s1, [.liquidate])
  else (s, [])

/-- The `finally:` block of `TradingMain.start`: on any shutdown
(`KeyboardInterrupt` or fatal error) run `stop_trading` once and then
disconnect the WebSocket. -/
def shutdownCleanup (s : MainState) : MainState × List MainEffect :=
  let r := stopTrading s
  ({ r.1 with ws_connected := false }, r.2 ++ [.wsDisconnect])

/-- Counterexample to C6: with the scheduler already in the Inactive state
(`is_trading_active = False`), the shutdown path performs no liquidation
at all — `stop_trading` returns at its guard — so the liquidation sequence
does not run "exactly once regardless of the state". -/
theorem shutdown_inactive_skips_liquidation :
    let s : MainState :=
      ⟨false, true, true, ["order_execution"], true, "8000000000", true, false⟩
    (shutdownCleanup s).2.count MainEffect.liquidate = 0 ∧
      (shutdownCleanup s).2 = [MainEffect.wsDisconnect] := by
  decide

/-- C6 (amended): on shutdown the stop-trading sequence is invoked once and
the Realtime Connection is closed last; the liquidation runs exactly once
if the scheduler was Active at shutdown time, and not at all if it was
already Inactive. -/
theorem shutdown_cleanup_effects (s : MainState) :
    (s.is_trading_active = true →
      (shutdownCleanup s).2.count MainEffect.liquidate = 1 ∧
        (shutdownCleanup s).2.getLast? = some MainEffect.wsDisconnect ∧
        (shutdownCleanup s).1.ws_connected = false) ∧
    (s.is_trading_active = false →
      (shutdownCleanup s).2 = [MainEffect.wsDisconnect] ∧
        (shutdownCleanup s).1.ws_connected = false) := by
  constructor
  · intro h
    unfold shutdownCleanup stopTrading
    rw [if_pos h]
    by_cases ht : s.has_live_task
    · simp [ht]
    · simp [ht]
  · intro h
    unfold shutdownCleanup stopTrading
    rw [if_neg (by rw [h]; exact Bool.false_ne_true)]
    simp

/-- Witness for C6: the amended behavior at one Active state and one
Inactive state. -/
theorem shutdown_cleanup_effects_witness :
    let sAct : MainState :=
      ⟨true, true, true, ["order_execution"], true, "8000000000", true, true⟩
    let sIn : MainState :=
      ⟨false, false, false, [], false, "8000000000", false, false⟩
    ((shutdownCleanup sAct).2.count MainEffect.liquidate = 1 ∧
        (shutdownCleanup sAct).2.getLast? = some MainEffect.wsDisconnect ∧
        (shutdownCleanup sAct).1.ws_connected = false) ∧
      ((shutdownCleanup sIn).2 = [MainEffect.wsDisconnect] ∧
        (shutdownCleanup sIn).1.ws_connected = false) := by
  intro sAct sIn
  exact ⟨(shutdown_cleanup_effects sAct).1 rfl, (shutdown_cleanup_effects sIn).2 rfl⟩

/-- C10: calling `start_trading` while trading is already active returns
at the guard: no side effect is performed and every field of the
`TradingMain` state is unchanged. -/
theorem start_trading_active_noop (s : MainState)
    (h : s.is_trading_active = true) :
    startTrading s = (s, []) := by
  unfold startTrading
  rw [if_pos h]

/-- Witness for C10: a concrete active state. -/
theorem start_trading_active_noop_witness :
    let s : MainState :=
      ⟨true, true, true, ["order_execution"], true, "8000000000", true, true⟩
    startTrading s = (s, []) := by
  intro s
  exact start_trading_active_noop s rfl

/-! ## Heartbeat echo (`PING` branch of `receive_messages`)

The loop decodes every inbound frame with `json.loads` and, on `trnm ==
'PING'`, sends back `json.dumps(response)`.  Heartbeat frames are flat
JSON objects whose values are strings, so the codec is modelled on that
shape: `dumpsFlat` mirrors `json.dumps` with its default separators
`', '` and `': '`, and `loadsFlat` mirrors `json.loads` restricted to
flat string-valued objects (no escape sequences). -/

/-- The character `{`. -/
def lbrace : Char := Char.ofNat 123

/-- The character `}`. -/
def rbrace : Char := Char.ofNat 125

/-- `json.dumps` of one `"key": "value"` pair (default `': '` separator). -/
def pairChars (k v : String) : List Char :=
  '"' :: k.data ++ '"' :: ':' :: ' ' :: '"' :: v.data ++ ['"']

/-- `json.dumps` of the members of a flat object (default `', '`
separator). -/
def dumpsPairs : List (String × String) → List Char
  | [] => []
  | [(k, v)] => pairChars k v
  | (k, v) :: rest => pairChars k v ++ ',' :: ' ' :: dumpsPairs rest

/-- `json.dumps` of a flat string-valued object with Python's default
formatting. -/
def dumpsFlat (kvs : List (String × String)) : String :=
  String.mk (lbrace :: dumpsPairs kvs ++ [rbrace])

/-- Consume characters up to the closing `"` of a string literal. -/
def takeStr : List Char → Option (List Char × List Char)
  | [] => none
  | c :: rest =>
    if c = '"' then some ([], rest)
    else
      match takeStr rest with
      | some (st, r) => some (c :: st, r)
      | none => none

/-- Skip blanks (the only whitespace `json.dumps` emits). -/
def skipSpaces (cs : List Char) : List Char := cs.dropWhile (· = ' ')

/-- Parse one JSON string literal at the head of the input. -/
def parseStringLit (cs : List Char) : Option (String × List Char) :=
  match cs with
  | [] => none
  | c :: rest =>
    if c = '"' then (takeStr rest).map (fun p => (String.mk p.1, p.2)) else none

/-- After a `"key": "value"` member: a `,` continues with more members
(parsed by `rec`), a `}` closes the object. -/
def parsePairsTail (k v : String)
    (rec : List Char → Option (List (String × String) × List Char))
    (X : List Char) : Option (List (String × String) × List Char) :=
  match skipSpaces X with
  | [] => none
  | c4 :: r8 =>
    if c4 = ',' then (rec (skipSpaces r8)).map (fun p => ((k, v) :: p.1, p.2))
    else if c4 = rbrace then some ([(k, v)], r8)
    else none

/-- Parse the members of a flat object, positioned at the first character
after `{` (or after a `,`); returns the members and the input after the
closing `}`. -/
def parsePairs : Nat → List Char → Option (List (String × String) × List Char)
  | 0, _ => none
  | fuel + 1, cs =>
    match parseStringLit cs with
    | none => none
    | some (k, r1) =>
      match skipSpaces r1 with
      | [] => none
      | c2 :: r3 =>
        if c2 = ':' then
          match parseStringLit (skipSpaces r3) with
          | none => none
          | some (v, r6) => parsePairsTail k v (parsePairs fuel) r6
        else none

/-- `json.loads` restricted to flat string-valued objects. -/
def loadsFlat (frame : String) : Option (List (String × String)) :=
  match skipSpaces frame.data with
  | [] => none
  | c :: cs1 =>
    if c = lbrace then
      match skipSpaces cs1 with
      | [] => none
      | c2 :: cs3 =>
        if c2 = rbrace then
          if skipSpaces cs3 = [] then some [] else none
        else
          match parsePairs ((c2 :: cs3).length + 1) (c2 :: cs3) with
          | some (kvs, rem) => if skipSpaces rem = [] then some kvs else none
          | none => none
    else none

/-- The `PING` branch of `receive_messages`: decode the inbound frame and,
when its `trnm` is `PING`, send back `json.dumps` of the decoded object. -/
def pingEchoSent (frame : String) : Option String :=
  match loadsFlat frame with
  | some kvs =>
    if kvs.lookup "trnm" = some "PING" then some (dumpsFlat kvs) else none
  | none => none

/-- Keys and values that contain no `"` (such strings are serialized
without escape sequences, the shape the codec models). -/
def wfFlat (kvs : List (String × String)) : Prop :=
  ∀ kv ∈ kvs, '"' ∉ kv.1.data ∧ '"' ∉ kv.2.data

theorem takeStr_append (s : List Char) (hs : '"' ∉ s) (r : List Char) :
    takeStr (s ++ '"' :: r) = some (s, r) := by
  induction s with
  | nil => simp [takeStr]
  | cons c cs ih =>
    have hc : c ≠ '"' := fun h => hs (h ▸ List.mem_cons_self c cs)
    have hcs : '"' ∉ cs := fun h => hs (List.mem_cons_of_mem _ h)
    simp [takeStr, hc, ih hcs]

theorem parseStringLit_append (k : String) (hk : '"' ∉ k.data) (r : List Char) :
    parseStringLit ('"' :: k.data ++ '"' :: r) = some (k, r) := by
  simp [parseStringLit, takeStr_append k.data hk r]

theorem skipSpaces_cons_of_ne {c : Char} (h : c ≠ ' ') (r : List Char) :
    skipSpaces (c :: r) = c :: r := by
  simp [skipSpaces, List.dropWhile_cons, h]

theorem skipSpaces_space (r : List Char) : skipSpaces (' ' :: r) = skipSpaces r := by
  simp [skipSpaces, List.dropWhile_cons]

theorem parsePairs_step (k v : String) (X : List Char) (f : Nat)
    (hk : '"' ∉ k.data) (hv : '"' ∉ v.data) :
    parsePairs (f + 1) (pairChars k v ++ X) =
      parsePairsTail k v (parsePairs f) X := by
  have hshape : pairChars k v ++ X =
      '"' :: k.data ++ '"' :: (':' :: ' ' :: ('"' :: v.data ++ '"' :: X)) := by
    simp [pairChars]
  rw [hshape]
  simp only [parsePairs]
  rw [parseStringLit_append k hk]
  simp only []
  rw [skipSpaces_cons_of_ne (by decide)]
  simp only [if_pos]
  rw [skipSpaces_space, List.cons_append, skipSpaces_cons_of_ne (by decide),
    ← List.cons_append, parseStringLit_append v hv]

theorem dumpsPairs_head (kv : String × String) (rest : List (String × String)) :
    ∃ tl, dumpsPairs (kv :: rest) = '"' :: tl := by
  obtain ⟨k, v⟩ := kv
  cases rest with
  | nil => exact ⟨_, rfl⟩
  | cons a b => exact ⟨_, rfl⟩

theorem length_dumpsPairs : ∀ kvs : List (String × String),
    kvs.length ≤ (dumpsPairs kvs).length := by
  intro kvs
  induction kvs with
  | nil => simp [dumpsPairs]
  | cons kv rest ih =>
    obtain ⟨k, v⟩ := kv
    cases rest with
    | nil =>
      simp only [dumpsPairs, pairChars, List.length_append, List.length_cons,
        List.length_nil]
      omega
    | cons kv2 rest2 =>
      have h : dumpsPairs ((k, v) :: kv2 :: rest2) =
          pairChars k v ++ ',' :: ' ' :: dumpsPairs (kv2 :: rest2) := rfl
      rw [h]
      simp only [List.length_cons, List.length_append, pairChars,
        List.length_nil] at ih ⊢
      omega

theorem parsePairs_dumpsPairs :
    ∀ (kvs : List (String × String)) (f : Nat), kvs ≠ [] → wfFlat kvs →
      kvs.length ≤ f →
      parsePairs f (dumpsPairs kvs ++ [rbrace]) = some (kvs, []) := by
  intro kvs
  induction kvs with
  | nil => intro f h; exact absurd rfl h
  | cons kv rest ih =>
    intro f _ hwf hlen
    obtain ⟨k, v⟩ := kv
    have hk := (hwf (k, v) (List.mem_cons_self _ _)).1
    have hv := (hwf (k, v) (List.mem_cons_self _ _)).2
    obtain ⟨g, rfl⟩ : ∃ g, f = g + 1 := ⟨f - 1, by simp at hlen; omega⟩
    cases rest with
    | nil =>
      rw [show dumpsPairs [(k, v)] = pairChars k v from rfl,
        parsePairs_step k v [rbrace] g hk hv]
      rfl
    | cons kv2 rest2 =>
      have hd : dumpsPairs ((k, v) :: kv2 :: rest2) ++ [rbrace] =
          pairChars k v ++ (',' :: ' ' :: (dumpsPairs (kv2 :: rest2) ++ [rbrace])) := by
        rw [show dumpsPairs ((k, v) :: kv2 :: rest2) =
          pairChars k v ++ ',' :: ' ' :: dumpsPairs (kv2 :: rest2) from rfl]
        rw [List.append_assoc]
        rfl
      rw [hd, parsePairs_step k v _ g hk hv]
      show Option.map (fun p => ((k, v) :: p.1, p.2))
          (parsePairs g (skipSpaces (' ' :: (dumpsPairs (kv2 :: rest2) ++ [rbrace])))) =
        some ((k, v) :: kv2 :: rest2, [])
      rw [skipSpaces_space]
      obtain ⟨tl, htl⟩ := dumpsPairs_head kv2 rest2
      rw [htl, List.cons_append, skipSpaces_cons_of_ne (by decide),
        ← List.cons_append, ← htl]
      rw [ih g (by simp) (fun p hp => hwf p (List.mem_cons_of_mem _ hp))
        (by simp at hlen ⊢; omega)]
      rfl

/-- Re-serializing a decoded flat object reproduces the object: the
`json.dumps` / `json.loads` round trip, on quote-free flat string
objects. -/
theorem loadsFlat_dumpsFlat (kvs : List (String × String)) (hwf : wfFlat kvs) :
    loadsFlat (dumpsFlat kvs) = some kvs := by
  cases kvs with
  | nil => decide
  | cons kv rest =>
    unfold dumpsFlat loadsFlat
    rw [show (String.mk ((lbrace :: dumpsPairs (kv :: rest)) ++ [rbrace])).data =
      (lbrace :: dumpsPairs (kv :: rest)) ++ [rbrace] from rfl]
    rw [List.cons_append, skipSpaces_cons_of_ne (by decide)]
    show (match skipSpaces (dumpsPairs (kv :: rest) ++ [rbrace]) with
      | [] => none
      | c2 :: cs3 =>
        if c2 = rbrace then if skipSpaces cs3 = [] then some [] else none
        else
          match parsePairs ((c2 :: cs3).length + 1) (c2 :: cs3) with
          | some (kvs, rem) => if skipSpaces rem = [] then some kvs else none
          | none => none) = some (kv :: rest)
    obtain ⟨tl, htl⟩ := dumpsPairs_head kv rest
    rw [htl, List.cons_append, skipSpaces_cons_of_ne (by decide)]
    show (match parsePairs (('"' :: (tl ++ [rbrace])).length + 1)
        ('"' :: (tl ++ [rbrace])) with
      | some (kvs, rem) => if skipSpaces rem = [] then some kvs else none
      | none => none) = some (kv :: rest)
    rw [← List.cons_append, ← htl]
    have h1 := length_dumpsPairs (kv :: rest)
    have hlen : (kv :: rest).length ≤ (dumpsPairs (kv :: rest) ++ [rbrace]).length + 1 := by
      simp only [List.length_append, List.length_cons, List.length_nil] at h1 ⊢
      omega
    rw [parsePairs_dumpsPairs (kv :: rest) _ (by simp) hwf hlen]
    rfl


/-- Counterexample to C5: the `PING` branch replies with `json.dumps` of
the decoded object, whose default separators insert a space after `:` and
`,`; for a compact inbound heartbeat frame the echoed bytes therefore
differ from the received bytes, refuting byte-identity of the echo. -/
theorem ping_echo_not_byte_identical :
    pingEchoSent "\x7b\"trnm\":\"PING\",\"nonce\":\"abc\"\x7d" =
        some "\x7b\"trnm\": \"PING\", \"nonce\": \"abc\"\x7d" ∧
      "\x7b\"trnm\": \"PING\", \"nonce\": \"abc\"\x7d" ≠
        "\x7b\"trnm\":\"PING\",\"nonce\":\"abc\"\x7d" :=
  ⟨by decide, by decide⟩

/-- C5 (amended): the echoed heartbeat frame is the default `json.dumps`
serialization of the decoded inbound frame, so it denotes the identical
JSON object (re-decoding it yields exactly the received content), and it
is byte-identical to the inbound frame whenever the inbound frame is
already in that canonical serialized form. -/
theorem ping_echo_value_identical
    (b : String) (kvs : List (String × String))
    (hload : loadsFlat b = some kvs)
    (hping : kvs.lookup "trnm" = some "PING")
    (hwf : wfFlat kvs) :
    pingEchoSent b = some (dumpsFlat kvs) ∧
      loadsFlat (dumpsFlat kvs) = some kvs ∧
      pingEchoSent (dumpsFlat kvs) = some (dumpsFlat kvs) := by
  have hrt := loadsFlat_dumpsFlat kvs hwf
  refine ⟨?_, hrt, ?_⟩
  · unfold pingEchoSent
    rw [hload]
    show (if kvs.lookup "trnm" = some "PING" then some (dumpsFlat kvs) else none) =
      some (dumpsFlat kvs)
    rw [if_pos hping]
  · unfold pingEchoSent
    rw [hrt]
    show (if kvs.lookup "trnm" = some "PING" then some (dumpsFlat kvs) else none) =
      some (dumpsFlat kvs)
    rw [if_pos hping]

/-- Witness for C5: the compact heartbeat frame of the counterexample,
echoed as the same JSON object, and the canonical form echoed
byte-identically. -/
theorem ping_echo_value_identical_witness :
    pingEchoSent "\x7b\"trnm\":\"PING\",\"nonce\":\"abc\"\x7d" =
        some (dumpsFlat [("trnm", "PING"), ("nonce", "abc")]) ∧
      loadsFlat (dumpsFlat [("trnm", "PING"), ("nonce", "abc")]) =
        some [("trnm", "PING"), ("nonce", "abc")] ∧
      pingEchoSent (dumpsFlat [("trnm", "PING"), ("nonce", "abc")]) =
        some (dumpsFlat [("trnm", "PING"), ("nonce", "abc")]) :=
  ping_echo_value_identical _ _ (by decide) (by decide)
    (by unfold wfFlat; decide)

end LiveTrading
